import Mathlib

/-!
Shallow embedding of the realtime challenge coordination server: the
WebSocket message handlers (`handleSetOnline`, `handleSelectWinner`,
`handleGetWinnerSelections`, `handleAcceptChallenge`,
`handleJoinOpenChallenge`, `handleStartChallenge`, `handleClaimVictory`)
together with the in-memory `StateManager` cache, the durable store, and
the startup loader (`loadWinnerSelectionsFromDB`, `startServer`).

Modelling conventions:
- JavaScript `Map`s become association lists whose `setA` operation
  replaces the first binding for a key (a JS `Map` holds at most one
  binding per key) and appends otherwise.
- Wall-clock instants are abstract naturals passed in as `now`.
- A socket is identified by a natural number. Outbound traffic is
  recorded as a list of `Send` values: `toSocket` for a reply to the
  originating socket, `targeted` for `broadcastToChallengePlayers`
  aimed at the creator and the invitee, `toAll` for a roster broadcast.
- Database columns never consulted by these handlers (description,
  rules, createdAt, updatedAt, expiresAt, claimTime, user emails and
  profile fields) are elided from the records.
- JavaScript truthiness on strings (where the empty string is falsy) is
  made explicit at each place the source tests a string with `!` or `&&`.
-/

namespace ChallengeServer

inductive ChallengeStatus where
  | PENDING
  | ACCEPTED
  | IN_PROGRESS
  | COMPLETED
  | EXPIRED
  | DISPUTED
  | STARTING
deriving DecidableEq, Repr

structure User where
  id : String
  name : String
  coins : Nat
deriving DecidableEq, Repr

structure Challenge where
  id : String
  creatorId : String
  inviteeId : Option String
  status : ChallengeStatus
  game : String
  coins : Nat
  xp : Nat
  isOpen : Bool
  acceptedAt : Option Nat
  completedAt : Option Nat
  winnerId : Option String
deriving DecidableEq, Repr

/-- One row of the WinnerSelection table, keyed by the composite unique
key (challengeId, playerId). -/
structure WinnerSelectionRow where
  challengeId : String
  playerId : String
  selectedWinner : String
deriving DecidableEq, Repr

/-- The durable relational store as seen by the handlers. -/
structure Store where
  users : List User
  challenges : List Challenge
  winnerSelections : List WinnerSelectionRow
deriving DecidableEq, Repr

def findUser (s : Store) (uid : String) : Option User :=
  s.users.find? (fun u => u.id = uid)

def findChallenge (s : Store) (cid : String) : Option Challenge :=
  s.challenges.find? (fun c => c.id = cid)

/-- `prisma.challenge.update({where: {id: cid}, data: ...})`: rewrite the
record with the given id (the id is a primary key). -/
def updateChallengeList (cs : List Challenge) (cid : String)
    (f : Challenge → Challenge) : List Challenge :=
  cs.map (fun c => if c.id = cid then f c else c)

/-- Association-list lookup, mirroring `Map.get`. -/
def getA {α : Type} : List (String × α) → String → Option α
  | [], _ => none
  | e :: t, k => if e.1 = k then some e.2 else getA t k

/-- Association-list update, mirroring `Map.set`: replace the first
binding for the key, append when absent. -/
def setA {α : Type} : List (String × α) → String → α → List (String × α)
  | [], k, v => [(k, v)]
  | e :: t, k, v => if e.1 = k then (k, v) :: t else e :: setA t k v

/-- Association-list removal, mirroring `Map.delete`. -/
def delA {α : Type} (l : List (String × α)) (k : String) : List (String × α) :=
  l.filter (fun e => e.1 ≠ k)

structure OnlineUserData where
  sock : Nat
  name : String
  connectedAt : Nat
deriving DecidableEq, Repr

structure ChallengeStartState where
  creatorStarted : Bool
  opponentStarted : Bool
  timestamp : Nat
deriving DecidableEq, Repr

/-- A per-challenge nomination map: playerId to nominated winnerId. -/
abbrev Selections := List (String × String)

/-- The in-memory `StateManager` of the server: online users, the
start-handshake map and the nomination cache. -/
structure StateManager where
  onlineUsers : List (String × OnlineUserData)
  startChallengeMap : List (String × ChallengeStartState)
  winnerSelections : List (String × Selections)
deriving DecidableEq, Repr

def StateManager.setUserOnline (st : StateManager) (userId : String) (sock : Nat)
    (name : String) (now : Nat) : StateManager :=
  { st with onlineUsers := setA st.onlineUsers userId ⟨sock, name, now⟩ }

def StateManager.isUserOnline (st : StateManager) (userId : String) : Bool :=
  (getA st.onlineUsers userId).isSome

def StateManager.getAllOnlineUsers (st : StateManager) : List (String × String) :=
  st.onlineUsers.map (fun e => (e.1, e.2.name))

def StateManager.getWinnerSelections (st : StateManager) (cid : String) :
    Option Selections :=
  getA st.winnerSelections cid

/-- `record[c][p] = w` on a nested map: create the inner map when the
outer key is absent, otherwise update the inner map in place (the shape
of `if (!m.has(c)) m.set(c, new Map()); m.get(c).set(p, w)`). -/
def setNested : List (String × Selections) → String → String → String →
    List (String × Selections)
  | [], c, p, w => [(c, [(p, w)])]
  | e :: t, c, p, w =>
      if e.1 = c then (c, setA e.2 p w) :: t else e :: setNested t c p w

/-- `record[c]?.[p]` on a nested map. -/
def getNested (m : List (String × Selections)) (c p : String) : Option String :=
  match getA m c with
  | none => none
  | some sels => getA sels p

def StateManager.setWinnerSelection (st : StateManager) (cid pid wid : String) :
    StateManager :=
  { st with winnerSelections := setNested st.winnerSelections cid pid wid }

def StateManager.deleteWinnerSelections (st : StateManager) (cid : String) :
    StateManager :=
  { st with winnerSelections := delA st.winnerSelections cid }

def StateManager.deleteChallengeState (st : StateManager) (cid : String) :
    StateManager :=
  { st with startChallengeMap := delA st.startChallengeMap cid }

/-- Whole-server state: the durable store plus the in-memory cache. -/
structure ServerState where
  store : Store
  cache : StateManager
deriving DecidableEq, Repr

inductive Frame where
  | onlineUsersFrame (users : List (String × String))
  | challengeAccepted (ch : Challenge) (sels : Selections)
  | challengeStartedBy (ch : Challenge) (sels : Selections)
  | challengeUpdate (ch : Challenge) (sels : Selections)
  | challengeCompleted (challengeId winnerId : String) (ch : Challenge)
  | allWinnerSelections (sels : List (String × Selections))
  | joinOpenChallengeFailed (msg : String)
  | failedToStartChallenge (msg : String)
  | claimVictoryFailed (msg : String)
  | errorFrame (msg : String)
deriving DecidableEq, Repr

inductive Send where
  | toSocket (f : Frame)
  | targeted (creatorId : String) (inviteeId : Option String) (f : Frame)
  | toAll (f : Frame)
deriving DecidableEq, Repr

/-- `enrichChallengeWithSelections`: the nomination map attached to an
outbound challenge payload, empty when the cache has no entry. -/
def enrich (cache : StateManager) (cid : String) : Selections :=
  (getA cache.winnerSelections cid).getD []

def noSelectionsMsg : String :=
  "No winner selections found. Both players must select a winner first."

def challengeNotFoundClaimMsg : String := "Challenge not found."

def bothMustSelectMsg : String :=
  "Both players must select a winner before claiming victory."

def disagreeMsg : String :=
  "Players disagree on the winner. Please discuss and reselect."

def ownChallengeMsg : String := "You cannot join your own challenge"

def occupiedMsg : String := "Challenge already has a participant"

def notAvailableMsg : String := "Challenge is not available for joining"

def userNotFoundMsg : String := "User not found"

def insufficientCoinsMsg (need own : Nat) : String :=
  "Insufficient coins. You need " ++ toString need ++
    " coins but only have " ++ toString own

def onlyInviteeMsg : String := "Only the invited player can start the challenge"

def offlineMsg : String := "Opponent is Offline"

def wrongStatusStartMsg : String := "Challenge cannot be started from current status"

def challengeNotFoundMsg : String := "Challenge not found"

def saveSelectionFailedMsg : String := "Failed to save winner selection"

/-- JavaScript truthiness of an optional string: `null`/`undefined` and
the empty string are falsy. -/
def optTruthy : Option String → Bool
  | none => false
  | some s => s ≠ ""

/-- Negated truthiness, the shape of `!creatorSelection` in the source. -/
def jsMissing : Option String → Bool
  | none => true
  | some s => s = ""

/-- `handleSetOnline`: look the user up by id; when `online` is true and
the user row exists, bind the socket in the registry (replacing any
previous binding for that user id) and broadcast the roster; otherwise do
nothing (a missing user is only logged). -/
def handleSetOnline (now : Nat) (st : ServerState) (userId : String)
    (online : Bool) (sock : Nat) : ServerState × List Send :=
  if userId = "" then (st, [])
  else
    match findUser st.store userId with
    | some u =>
        if online then
          let cache := st.cache.setUserOnline userId sock u.name now
          ({ st with cache := cache },
            [Send.toAll (Frame.onlineUsersFrame cache.getAllOnlineUsers)])
        else (st, [])
    | none => (st, [])

def selKeyMatches (c p : String) (r : WinnerSelectionRow) : Bool :=
  r.challengeId = c && r.playerId = p

/-- `prisma.winnerSelection.upsert` on the composite key (challengeId,
playerId): update the matching row, create it when absent. -/
def upsertSelection (rows : List WinnerSelectionRow) (c p w : String) :
    List WinnerSelectionRow :=
  if rows.any (selKeyMatches c p) then
    rows.map (fun r =>
      if selKeyMatches c p r then { r with selectedWinner := w } else r)
  else rows ++ [⟨c, p, w⟩]

/-- `handleSelectWinner`: after the parameter-presence guard, a
transaction upserts the nomination row and reads the challenge; the
nomination is then mirrored into the cache and the enriched challenge is
broadcast to both players. When the challenge row does not exist the
upsert violates the WinnerSelection-to-Challenge foreign key of the
persisted schema, the transaction throws, and the catch block answers
with a generic error frame. No branch consults the challenge status. -/
def handleSelectWinner (st : ServerState) (challengeId playerId winnerId : String) :
    ServerState × List Send :=
  if challengeId = "" ∨ playerId = "" ∨ winnerId = "" then (st, [])
  else
    match findChallenge st.store challengeId with
    | none => (st, [Send.toSocket (Frame.errorFrame saveSelectionFailedMsg)])
    | some ch =>
        let store := { st.store with
          winnerSelections :=
            upsertSelection st.store.winnerSelections challengeId playerId winnerId }
        let cache := st.cache.setWinnerSelection challengeId playerId winnerId
        (⟨store, cache⟩,
          [Send.targeted ch.creatorId ch.inviteeId
            (Frame.challengeUpdate ch (enrich cache challengeId))])

/-- The `where: { Challenge: { status: IN_PROGRESS } }` join filter of the
winner-selection queries. -/
def selectionStatusActive (s : Store) (r : WinnerSelectionRow) : Bool :=
  match findChallenge s r.challengeId with
  | some ch => ch.status = ChallengeStatus.IN_PROGRESS
  | none => false

/-- `handleGetWinnerSelections`: read every WinnerSelection row whose
challenge is IN_PROGRESS, rebuild the nested reply object, refresh the
cache from the same rows, and answer with an `allWinnerSelections`
frame to the originating socket. -/
def handleGetWinnerSelections (st : ServerState) : ServerState × List Send :=
  let dbSelections := st.store.winnerSelections.filter (selectionStatusActive st.store)
  let allSelections := dbSelections.foldl
    (fun acc r => setNested acc r.challengeId r.playerId r.selectedWinner) []
  let cache := dbSelections.foldl
    (fun c r => c.setWinnerSelection r.challengeId r.playerId r.selectedWinner) st.cache
  ({ st with cache := cache },
    [Send.toSocket (Frame.allWinnerSelections allSelections)])

/-- `handleAcceptChallenge`: update the challenge to ACCEPTED with
`acceptedAt = now` — the current status is never consulted — and
broadcast the enriched challenge to both players. An update on a missing
id throws inside prisma and the catch block only logs. -/
def handleAcceptChallenge (now : Nat) (st : ServerState) (challengeId : String) :
    ServerState × List Send :=
  if challengeId = "" then (st, [])
  else
    match findChallenge st.store challengeId with
    | none => (st, [])
    | some ch =>
        let ch2 := { ch with status := ChallengeStatus.ACCEPTED, acceptedAt := some now }
        let store := { st.store with
          challenges := updateChallengeList st.store.challenges challengeId
            (fun c => { c with status := ChallengeStatus.ACCEPTED, acceptedAt := some now }) }
        ({ st with store := store },
          [Send.targeted ch2.creatorId ch2.inviteeId
            (Frame.challengeAccepted ch2 (enrich st.cache challengeId))])

/-- `handleJoinOpenChallenge`: the checks run in source order — challenge
exists; sender is not the creator; a sender who already occupies
`inviteeId` gets the idempotency branch (the challenge is re-updated to
ACCEPTED and re-broadcast); a different truthy occupant is rejected;
status must be PENDING; the user row must exist with enough coins. On
success `inviteeId`, `status` and `acceptedAt` are written; the `isOpen`
column is neither read nor written anywhere in this handler. Failure
frames go only to the originating socket. -/
def handleJoinOpenChallenge (now : Nat) (st : ServerState)
    (challengeId userId : String) : ServerState × List Send :=
  if challengeId = "" ∨ userId = "" then (st, [])
  else
    match findChallenge st.store challengeId with
    | none => (st, [Send.toSocket (Frame.joinOpenChallengeFailed challengeNotFoundMsg)])
    | some ch =>
        if ch.creatorId = userId then
          (st, [Send.toSocket (Frame.joinOpenChallengeFailed ownChallengeMsg)])
        else if ch.inviteeId = some userId then
          let ch2 := { ch with status := ChallengeStatus.ACCEPTED, acceptedAt := some now }
          let store := { st.store with
            challenges := updateChallengeList st.store.challenges challengeId
              (fun c => { c with status := ChallengeStatus.ACCEPTED, acceptedAt := some now }) }
          ({ st with store := store },
            [Send.targeted ch2.creatorId ch2.inviteeId
              (Frame.challengeAccepted ch2 (enrich st.cache challengeId))])
        else if optTruthy ch.inviteeId then
          (st, [Send.toSocket (Frame.joinOpenChallengeFailed occupiedMsg)])
        else if ch.status ≠ ChallengeStatus.PENDING then
          (st, [Send.toSocket (Frame.joinOpenChallengeFailed notAvailableMsg)])
        else
          match findUser st.store userId with
          | none => (st, [Send.toSocket (Frame.joinOpenChallengeFailed userNotFoundMsg)])
          | some u =>
              if u.coins < ch.coins then
                (st, [Send.toSocket (Frame.joinOpenChallengeFailed
                  (insufficientCoinsMsg ch.coins u.coins))])
              else
                let ch2 :=
                  { ch with inviteeId := some userId,
                            status := ChallengeStatus.ACCEPTED, acceptedAt := some now }
                let store := { st.store with
                  challenges := updateChallengeList st.store.challenges challengeId
                    (fun c =>
                      { c with inviteeId := some userId,
                               status := ChallengeStatus.ACCEPTED,
                               acceptedAt := some now }) }
                ({ st with store := store },
                  [Send.targeted ch2.creatorId ch2.inviteeId
                    (Frame.challengeAccepted ch2 (enrich st.cache challengeId))])

/-- `handleStartChallenge`: the challenge must exist, the sender must be
the invitee, both participants must be online, and the status must be
ACCEPTED; then the status moves to IN_PROGRESS, the started challenge is
broadcast to both players and the start-handshake entry is deleted. Every
failed precondition answers `failedToStartChallenge` to the originating
socket and leaves all state unchanged. -/
def handleStartChallenge (st : ServerState) (challengeId userId : String) :
    ServerState × List Send :=
  if challengeId = "" ∨ userId = "" then (st, [])
  else
    match findChallenge st.store challengeId with
    | none => (st, [Send.toSocket (Frame.failedToStartChallenge challengeNotFoundMsg)])
    | some ch =>
        if ch.inviteeId ≠ some userId then
          (st, [Send.toSocket (Frame.failedToStartChallenge onlyInviteeMsg)])
        else
          let bothOnline := st.cache.isUserOnline ch.creatorId &&
            (match ch.inviteeId with
             | some i => st.cache.isUserOnline i
             | none => false)
          if !bothOnline then
            (st, [Send.toSocket (Frame.failedToStartChallenge offlineMsg)])
          else if ch.status = ChallengeStatus.ACCEPTED then
            let ch2 := { ch with status := ChallengeStatus.IN_PROGRESS }
            let store := { st.store with
              challenges := updateChallengeList st.store.challenges challengeId
                (fun c => { c with status := ChallengeStatus.IN_PROGRESS }) }
            let cache := st.cache.deleteChallengeState challengeId
            (⟨store, cache⟩,
              [Send.targeted ch2.creatorId ch2.inviteeId
                (Frame.challengeStartedBy ch2 (enrich st.cache challengeId))])
          else
            (st, [Send.toSocket (Frame.failedToStartChallenge wrongStatusStartMsg)])

/-- `handleClaimVictory`: the consensus gate reads only the in-memory
nomination cache. A missing cache entry or a missing or empty nomination
for either participant answers `claimVictoryFailed` to both players; a
disagreement likewise; agreement completes the challenge in one
transaction (status COMPLETED, `completedAt = now`, `winnerId` = the
agreed value, all WinnerSelection rows of the challenge deleted), drops
the cache entry and broadcasts `challengeCompleted` to both players. -/
def handleClaimVictory (now : Nat) (st : ServerState) (challengeId : String) :
    ServerState × List Send :=
  if challengeId = "" then (st, [])
  else
    match st.cache.getWinnerSelections challengeId with
    | none =>
        match findChallenge st.store challengeId with
        | some ch =>
            (st, [Send.targeted ch.creatorId ch.inviteeId
              (Frame.claimVictoryFailed noSelectionsMsg)])
        | none => (st, [])
    | some gameSelections =>
        match findChallenge st.store challengeId with
        | none => (st, [Send.toSocket (Frame.claimVictoryFailed challengeNotFoundClaimMsg)])
        | some ch =>
            match getA gameSelections ch.creatorId,
                ch.inviteeId.bind (fun i => getA gameSelections i) with
            | some cSel, some iSel =>
                if cSel = "" ∨ iSel = "" then
                  (st, [Send.targeted ch.creatorId ch.inviteeId
                    (Frame.claimVictoryFailed bothMustSelectMsg)])
                else if cSel ≠ iSel then
                  (st, [Send.targeted ch.creatorId ch.inviteeId
                    (Frame.claimVictoryFailed disagreeMsg)])
                else
                  let ch2 :=
                    { ch with status := ChallengeStatus.COMPLETED,
                              completedAt := some now, winnerId := some cSel }
                  let store := { st.store with
                    challenges := updateChallengeList st.store.challenges challengeId
                      (fun c =>
                        { c with status := ChallengeStatus.COMPLETED,
                                 completedAt := some now, winnerId := some cSel }),
                    winnerSelections := st.store.winnerSelections.filter
                      (fun r => r.challengeId ≠ challengeId) }
                  let cache := st.cache.deleteWinnerSelections challengeId
                  (⟨store, cache⟩,
                    [Send.targeted ch.creatorId ch.inviteeId
                      (Frame.challengeCompleted challengeId cSel ch2)])
            | _, _ =>
                (st, [Send.targeted ch.creatorId ch.inviteeId
                  (Frame.claimVictoryFailed bothMustSelectMsg)])

/-- The startup query: every WinnerSelection row joined to an IN_PROGRESS
challenge. -/
def queryActiveSelections (s : Store) : List WinnerSelectionRow :=
  s.winnerSelections.filter (selectionStatusActive s)

def emptyCache : StateManager := ⟨[], [], []⟩

/-- `loadWinnerSelectionsFromDB`: seed the cache from the query result;
a database failure is re-thrown so the caller can abort bring-up. -/
def loadWinnerSelectionsFromDB (dbResult : Except String (List WinnerSelectionRow))
    (cache : StateManager) : Except String StateManager :=
  match dbResult with
  | Except.error e => Except.error e
  | Except.ok selections =>
      Except.ok (selections.foldl
        (fun c r => c.setWinnerSelection r.challengeId r.playerId r.selectedWinner) cache)

/-- `startServer`: warm the cache; on failure the process exits with
code 1, modelled as `Except.error 1`. -/
def startServer (dbResult : Except String (List WinnerSelectionRow)) :
    Except Nat StateManager :=
  match loadWinnerSelectionsFromDB dbResult emptyCache with
  | Except.error _ => Except.error 1
  | Except.ok cache => Except.ok cache

/-- Keys of an association list are pairwise distinct (the JS `Map`
shape; maintained by `setA` and `delA`). -/
def KeysNodup {α : Type} (l : List (String × α)) : Prop :=
  (l.map Prod.fst).Nodup

/-- The composite unique key (challengeId, playerId) of the
WinnerSelection table: two rows with the same key carry the same value. -/
def SelectionsKeyConsistent (rows : List WinnerSelectionRow) : Prop :=
  ∀ r1 ∈ rows, ∀ r2 ∈ rows, r1.challengeId = r2.challengeId →
    r1.playerId = r2.playerId → r1.selectedWinner = r2.selectedWinner

/-! Concrete server states used to evaluate the handlers at specific
inputs. -/

def alice : User := ⟨"u1", "alice", 50⟩

def bob : User := ⟨"u2", "bob", 100⟩

def exInProgress : Challenge :=
  ⟨"c1", "u1", some "u2", ChallengeStatus.IN_PROGRESS, "g", 10, 0, false,
    some 1, none, none⟩

def exAgreeState : ServerState :=
  ⟨⟨[alice, bob], [exInProgress], []⟩,
   ⟨[], [], [("c1", [("u1", "u1"), ("u2", "u1")])]⟩⟩

def exDisagreeState : ServerState :=
  ⟨⟨[alice, bob], [exInProgress], []⟩,
   ⟨[], [], [("c1", [("u1", "u1"), ("u2", "u2")])]⟩⟩

def exAccepted : Challenge :=
  ⟨"c2", "u1", some "u2", ChallengeStatus.ACCEPTED, "g", 10, 0, false,
    none, none, none⟩

def exAcceptedState : ServerState :=
  ⟨⟨[alice, bob], [exAccepted], []⟩, ⟨[], [], []⟩⟩

def exCompleted : Challenge :=
  ⟨"c3", "u1", some "u2", ChallengeStatus.COMPLETED, "g", 10, 0, false,
    some 1, some 2, some "u1"⟩

def exCompletedState : ServerState :=
  ⟨⟨[alice, bob], [exCompleted], []⟩, ⟨[], [], []⟩⟩

def exPendingClosed : Challenge :=
  ⟨"c4", "u1", none, ChallengeStatus.PENDING, "g", 10, 0, false,
    none, none, none⟩

def exPendingClosedState : ServerState :=
  ⟨⟨[alice, bob], [exPendingClosed], []⟩, ⟨[], [], []⟩⟩

def exPendingOpen : Challenge :=
  ⟨"c5", "u1", none, ChallengeStatus.PENDING, "g", 10, 0, true,
    none, none, none⟩

def exPendingOpenState : ServerState :=
  ⟨⟨[alice, bob], [exPendingOpen], []⟩, ⟨[], [], []⟩⟩

def exStartState : ServerState :=
  ⟨⟨[alice, bob], [exAccepted], []⟩,
   ⟨[("u1", ⟨1, "alice", 0⟩), ("u2", ⟨2, "bob", 0⟩)],
    [("c2", ⟨true, false, 0⟩)], []⟩⟩

def exSelState : ServerState :=
  ⟨⟨[alice, bob], [exInProgress], []⟩, ⟨[], [], []⟩⟩

def exCacheMissState : ServerState :=
  ⟨⟨[alice, bob], [exInProgress],
    [⟨"c1", "u1", "u1"⟩, ⟨"c1", "u2", "u1"⟩]⟩,
   ⟨[], [], []⟩⟩

def exStartupStore : Store :=
  ⟨[alice, bob], [exInProgress, exCompleted],
   [⟨"c1", "u1", "u1"⟩, ⟨"c1", "u2", "u1"⟩, ⟨"c3", "u1", "u2"⟩]⟩

def exOnlineState : ServerState := ⟨⟨[alice, bob], [], []⟩, ⟨[], [], []⟩⟩

/-! Association-list lemmas. -/

theorem getA_setA_same {α : Type} (l : List (String × α)) (k : String) (v : α) :
    getA (setA l k v) k = some v := by
  induction l with
  | nil => simp [setA, getA]
  | cons e t ih =>
      by_cases h : e.1 = k
      · simp [setA, h, getA]
      · simp [setA, h, getA, ih]

theorem getA_setA_ne {α : Type} (l : List (String × α)) (k k2 : String) (v : α)
    (h : k2 ≠ k) : getA (setA l k v) k2 = getA l k2 := by
  have hkk : ¬ k = k2 := fun hh => h hh.symm
  induction l with
  | nil => simp [setA, getA, hkk]
  | cons e t ih =>
      by_cases he : e.1 = k
      · simp [setA, he, getA, hkk]
      · simp [setA, he, getA, ih]

theorem setA_setA_same {α : Type} (l : List (String × α)) (k : String) (v1 v2 : α) :
    setA (setA l k v1) k v2 = setA l k v2 := by
  induction l with
  | nil => simp [setA]
  | cons e t ih =>
      by_cases h : e.1 = k
      · simp [setA, h]
      · simp [setA, h, ih]

theorem getA_delA_same {α : Type} (l : List (String × α)) (k : String) :
    getA (delA l k) k = none := by
  induction l with
  | nil => simp [delA, getA]
  | cons e t ih =>
      by_cases h : e.1 = k
      · simpa [delA, h] using ih
      · simpa [delA, getA, h] using ih

theorem keys_setA_mem {α : Type} (l : List (String × α)) (k x : String) (v : α)
    (hx : x ∈ (setA l k v).map Prod.fst) : x = k ∨ x ∈ l.map Prod.fst := by
  induction l with
  | nil => simpa [setA] using hx
  | cons e t ih =>
      by_cases h : e.1 = k
      · simp [setA, h] at hx
        rcases hx with hx | hx
        · exact Or.inl hx
        · exact Or.inr (by simp [hx])
      · simp [setA, h] at hx
        rcases hx with hx | hx
        · exact Or.inr (by simp [hx])
        · rcases ih (by simpa using hx) with hk | ht
          · exact Or.inl hk
          · exact Or.inr (by simp [ht])

theorem KeysNodup_setA {α : Type} (l : List (String × α)) (k : String) (v : α)
    (h : KeysNodup l) : KeysNodup (setA l k v) := by
  induction l with
  | nil => simp [setA, KeysNodup]
  | cons e t ih =>
      unfold KeysNodup at h ⊢
      simp only [List.map_cons, List.nodup_cons] at h
      by_cases he : e.1 = k
      · rw [show setA (e :: t) k v = (k, v) :: t from by simp [setA, he]]
        simp only [List.map_cons, List.nodup_cons]
        exact ⟨he ▸ h.1, h.2⟩
      · rw [show setA (e :: t) k v = e :: setA t k v from by simp [setA, he]]
        simp only [List.map_cons, List.nodup_cons]
        refine ⟨?_, ih h.2⟩
        intro hmem
        rcases keys_setA_mem t k e.1 v hmem with hk | ht
        · exact he hk
        · exact h.1 ht

/-! Nested nomination-map lemmas. -/

theorem getNested_setNested_same (m : List (String × Selections)) (c p w : String) :
    getNested (setNested m c p w) c p = some w := by
  induction m with
  | nil => simp [setNested, getNested, getA, setA]
  | cons e t ih =>
      by_cases he : e.1 = c
      · simp [setNested, he, getNested, getA, getA_setA_same]
      · simpa [setNested, he, getNested, getA] using ih

theorem getNested_setNested_other (m : List (String × Selections))
    (c2 p2 w c p : String) (h : ¬(c2 = c ∧ p2 = p)) :
    getNested (setNested m c2 p2 w) c p = getNested m c p := by
  by_cases hc : c2 = c
  · subst hc
    have hp : p ≠ p2 := fun hh => h ⟨rfl, hh.symm⟩
    induction m with
    | nil =>
        have hp2 : ¬ p2 = p := fun hh => hp hh.symm
        simp [setNested, getNested, getA, hp2]
    | cons e t ih =>
        by_cases he : e.1 = c2
        · simp [setNested, he, getNested, getA, getA_setA_ne e.2 p2 p w hp]
        · simpa [setNested, he, getNested, getA] using ih
  · have hc2 : ¬ c2 = c := hc
    induction m with
    | nil => simp [setNested, getNested, getA, hc2]
    | cons e t ih =>
        by_cases he : e.1 = c2
        · have hec : ¬ e.1 = c := fun hh => hc (he.symm.trans hh)
          simp [setNested, he, getNested, getA, hc2, hec]
        · by_cases hec : e.1 = c
          · have hcc : ¬ c = c2 := fun hh => hc2 hh.symm
            simp [setNested, he, getNested, getA, hec, hcc]
          · simpa [setNested, he, getNested, getA, hec] using ih

theorem setNested_setNested (m : List (String × Selections)) (c p w1 w2 : String) :
    setNested (setNested m c p w1) c p w2 = setNested m c p w2 := by
  induction m with
  | nil => simp [setNested, setA]
  | cons e t ih =>
      by_cases he : e.1 = c
      · simp [setNested, he, setA_setA_same]
      · simp [setNested, he, ih]

/-- The fold that replays a list of rows into a nested nomination map. -/
def nestFold (rows : List WinnerSelectionRow) (acc : List (String × Selections)) :
    List (String × Selections) :=
  rows.foldl (fun a r => setNested a r.challengeId r.playerId r.selectedWinner) acc

theorem getNested_nestFold_preserve (rows : List WinnerSelectionRow)
    (acc : List (String × Selections)) (c p w : String)
    (hall : ∀ r ∈ rows, r.challengeId = c → r.playerId = p → r.selectedWinner = w)
    (hacc : getNested acc c p = some w) :
    getNested (nestFold rows acc) c p = some w := by
  induction rows generalizing acc with
  | nil => simpa [nestFold] using hacc
  | cons r t ih =>
      simp only [nestFold, List.foldl_cons] at *
      apply ih _ (fun r2 hr2 => hall r2 (List.mem_cons_of_mem _ hr2))
      by_cases hk : r.challengeId = c ∧ r.playerId = p
      · have hw := hall r (List.mem_cons_self _ _) hk.1 hk.2
        rw [hk.1, hk.2, hw]
        exact getNested_setNested_same acc c p w
      · rw [getNested_setNested_other acc _ _ _ c p hk]
        exact hacc

theorem getNested_nestFold_mem (rows : List WinnerSelectionRow)
    (acc : List (String × Selections)) (c p w : String)
    (hall : ∀ r ∈ rows, r.challengeId = c → r.playerId = p → r.selectedWinner = w)
    (hex : ∃ r ∈ rows, r.challengeId = c ∧ r.playerId = p) :
    getNested (nestFold rows acc) c p = some w := by
  induction rows generalizing acc with
  | nil => simp at hex
  | cons r t ih =>
      simp only [nestFold, List.foldl_cons] at *
      by_cases hk : r.challengeId = c ∧ r.playerId = p
      · apply getNested_nestFold_preserve t _ c p w
          (fun r2 hr2 => hall r2 (List.mem_cons_of_mem _ hr2))
        have hw := hall r (List.mem_cons_self _ _) hk.1 hk.2
        rw [hk.1, hk.2, hw]
        exact getNested_setNested_same acc c p w
      · rcases hex with ⟨r2, hr2, hkey⟩
        rcases List.mem_cons.mp hr2 with rfl | hr2t
        · exact absurd hkey hk
        · exact ih _ (fun r3 hr3 => hall r3 (List.mem_cons_of_mem _ hr3)) ⟨r2, hr2t, hkey⟩

theorem getNested_nestFold_some (rows : List WinnerSelectionRow)
    (acc : List (String × Selections)) (c p w : String)
    (h : getNested (nestFold rows acc) c p = some w) :
    (∃ r ∈ rows, r.challengeId = c ∧ r.playerId = p ∧ r.selectedWinner = w) ∨
      getNested acc c p = some w := by
  induction rows generalizing acc with
  | nil => exact Or.inr (by simpa [nestFold] using h)
  | cons r t ih =>
      simp only [nestFold, List.foldl_cons] at h
      rcases ih _ h with ⟨r2, hr2, hkey⟩ | hacc
      · exact Or.inl ⟨r2, List.mem_cons_of_mem _ hr2, hkey⟩
      · by_cases hk : r.challengeId = c ∧ r.playerId = p
        · rw [hk.1, hk.2, getNested_setNested_same] at hacc
          exact Or.inl ⟨r, List.mem_cons_self _ _,
            hk.1, hk.2, Option.some_injective _ hacc⟩
        · rw [getNested_setNested_other acc _ _ _ c p hk] at hacc
          exact Or.inr hacc

theorem foldWinnerSelections_eq_nestFold (rows : List WinnerSelectionRow)
    (c0 : StateManager) :
    (rows.foldl (fun c r =>
      c.setWinnerSelection r.challengeId r.playerId r.selectedWinner) c0).winnerSelections
      = nestFold rows c0.winnerSelections := by
  induction rows generalizing c0 with
  | nil => rfl
  | cons r t ih =>
      simp only [nestFold, List.foldl_cons]
      rw [ih]
      rfl

/-! Upsert lemmas for the WinnerSelection table. -/

theorem selKeyMatches_iff (c p : String) (r : WinnerSelectionRow) :
    selKeyMatches c p r = true ↔ r.challengeId = c ∧ r.playerId = p := by
  simp [selKeyMatches]

theorem upsert_key_value (rows : List WinnerSelectionRow) (c p w : String) :
    ∀ r2 ∈ upsertSelection rows c p w, r2.challengeId = c → r2.playerId = p →
      r2.selectedWinner = w := by
  intro r2 hr2 hc hp
  unfold upsertSelection at hr2
  by_cases h : rows.any (selKeyMatches c p)
  · rw [if_pos h] at hr2
    obtain ⟨r, hr, hfr⟩ := List.mem_map.mp hr2
    by_cases hm : selKeyMatches c p r
    · rw [if_pos hm] at hfr
      rw [← hfr]
    · rw [if_neg hm] at hfr
      subst hfr
      exact absurd ((selKeyMatches_iff c p r).mpr ⟨hc, hp⟩) hm
  · rw [if_neg h] at hr2
    rcases List.mem_append.mp hr2 with hmem | hmem
    · exact absurd (List.any_eq_true.mpr
        ⟨r2, hmem, (selKeyMatches_iff c p r2).mpr ⟨hc, hp⟩⟩) h
    · have : r2 = ⟨c, p, w⟩ := by simpa using hmem
      subst this
      rfl

theorem upsert_key_mem (rows : List WinnerSelectionRow) (c p w : String) :
    ∃ r2 ∈ upsertSelection rows c p w, r2.challengeId = c ∧ r2.playerId = p := by
  unfold upsertSelection
  by_cases h : rows.any (selKeyMatches c p)
  · rw [if_pos h]
    obtain ⟨r, hr, hm⟩ := List.any_eq_true.mp h
    have hkey := (selKeyMatches_iff c p r).mp hm
    refine ⟨{ r with selectedWinner := w }, ?_, hkey.1, hkey.2⟩
    exact List.mem_map.mpr ⟨r, hr, by rw [if_pos hm]⟩
  · rw [if_neg h]
    exact ⟨⟨c, p, w⟩, List.mem_append.mpr (Or.inr (by simp)), rfl, rfl⟩

theorem selKeyMatches_set (c p : String) (r : WinnerSelectionRow) (w : String) :
    selKeyMatches c p { r with selectedWinner := w } = selKeyMatches c p r := by
  simp [selKeyMatches]

theorem upsert_upsert (rows : List WinnerSelectionRow) (c p w1 w2 : String) :
    upsertSelection (upsertSelection rows c p w1) c p w2
      = upsertSelection rows c p w2 := by
  by_cases h : rows.any (selKeyMatches c p)
  · obtain ⟨r0, hr0, hm0⟩ := List.any_eq_true.mp h
    have h2 : (rows.map (fun r =>
        if selKeyMatches c p r then { r with selectedWinner := w1 } else r)).any
        (selKeyMatches c p) = true := by
      refine List.any_eq_true.mpr ⟨{ r0 with selectedWinner := w1 },
        List.mem_map.mpr ⟨r0, hr0, by rw [if_pos hm0]⟩, ?_⟩
      rw [selKeyMatches_set]
      exact hm0
    unfold upsertSelection
    rw [if_pos h, if_pos h2, if_pos h, List.map_map]
    apply List.map_congr_left
    intro r hr
    by_cases hm : selKeyMatches c p r
    · simp only [Function.comp_apply, if_pos hm, selKeyMatches_set, if_pos hm]
    · simp only [Function.comp_apply, if_neg hm]
  · have hnone : ∀ r ∈ rows, selKeyMatches c p r = false := by
      intro r hr
      by_contra hcon
      exact h (List.any_eq_true.mpr ⟨r, hr, by revert hcon; cases selKeyMatches c p r <;> simp⟩)
    have h2 : ((rows ++ [(⟨c, p, w1⟩ : WinnerSelectionRow)]).any
        (selKeyMatches c p)) = true := by
      refine List.any_eq_true.mpr ⟨⟨c, p, w1⟩, List.mem_append.mpr (Or.inr (by simp)), ?_⟩
      simp [selKeyMatches]
    unfold upsertSelection
    rw [if_neg h, if_pos h2, if_neg h, List.map_append]
    have hid : rows.map (fun r =>
        if selKeyMatches c p r then { r with selectedWinner := w2 } else r) = rows := by
      have := List.map_congr_left (l := rows)
        (f := fun r => if selKeyMatches c p r then { r with selectedWinner := w2 } else r)
        (g := id) (by intro r hr; simp [hnone r hr])
      simpa using this
    rw [hid]
    have hone : ([(⟨c, p, w1⟩ : WinnerSelectionRow)].map (fun r =>
        if selKeyMatches c p r then { r with selectedWinner := w2 } else r))
        = [⟨c, p, w2⟩] := by
      simp [selKeyMatches]
    rw [hone]

/-! Store lemmas. -/

theorem findChallenge_id (s : Store) (cid : String) (ch : Challenge)
    (h : findChallenge s cid = some ch) : ch.id = cid := by
  unfold findChallenge at h
  have := List.find?_some h
  simpa using this

theorem find?_updateChallengeList (cs : List Challenge) (cid : String)
    (f : Challenge → Challenge) (ch : Challenge)
    (hfind : cs.find? (fun c => c.id = cid) = some ch)
    (hid : (f ch).id = ch.id) :
    (updateChallengeList cs cid f).find? (fun c => c.id = cid) = some (f ch) := by
  induction cs with
  | nil => simp at hfind
  | cons c t ih =>
      by_cases hc : c.id = cid
      · rw [List.find?_cons_of_pos _ (by simpa using hc)] at hfind
        have hcc : ch = c := by injection hfind with hh; exact hh.symm
        subst hcc
        unfold updateChallengeList
        simp only [List.map_cons, if_pos hc]
        rw [List.find?_cons_of_pos _ (by simp [hid, hc])]
      · rw [List.find?_cons_of_neg _ (by simpa using hc)] at hfind
        unfold updateChallengeList
        simp only [List.map_cons, if_neg hc]
        rw [List.find?_cons_of_neg _ (by simpa using hc)]
        exact ih hfind

/-! Claim theorems. -/

/-- Claim C1: for every claimVictory message on a challenge whose cached
nominations for the creator and the invitee both exist and are equal, the
handler sets the challenge status to COMPLETED, `completedAt` to the
current time and `winnerId` to the agreed nominated user, and broadcasts a
`challengeCompleted` frame to the creator and the invitee; the completed
challenge's `winnerId` is exactly the value both players selected. -/
theorem claimVictory_agreement_completes (now : Nat) (st : ServerState)
    (cid : String) (sels : Selections) (ch : Challenge) (iv cSel : String)
    (hcid : cid ≠ "")
    (hcache : st.cache.getWinnerSelections cid = some sels)
    (hch : findChallenge st.store cid = some ch)
    (hinv : ch.inviteeId = some iv)
    (hcSel : getA sels ch.creatorId = some cSel)
    (hcne : cSel ≠ "")
    (hiSel : getA sels iv = some cSel) :
    findChallenge (handleClaimVictory now st cid).1.store cid =
      some { ch with status := ChallengeStatus.COMPLETED,
                     completedAt := some now, winnerId := some cSel } ∧
    (handleClaimVictory now st cid).2 = [Send.targeted ch.creatorId ch.inviteeId
      (Frame.challengeCompleted cid cSel
        { ch with status := ChallengeStatus.COMPLETED,
                  completedAt := some now, winnerId := some cSel })] := by
  have h1 : ¬(cSel = "" ∨ cSel = "") := by simp [hcne]
  have h2 : ¬(cSel ≠ cSel) := by simp
  simp only [handleClaimVictory, if_neg hcid, hcache, hch, hinv, Option.some_bind,
    hcSel, hiSel, if_neg h1, if_neg h2]
  constructor
  · show findChallenge { st.store with
        challenges := updateChallengeList st.store.challenges cid
          (fun c => { c with status := ChallengeStatus.COMPLETED,
                             completedAt := some now, winnerId := some cSel }),
        winnerSelections := st.store.winnerSelections.filter
          (fun r => r.challengeId ≠ cid) } cid = _
    unfold findChallenge
    rw [← hinv]
    exact find?_updateChallengeList st.store.challenges cid
      (fun c => { c with status := ChallengeStatus.COMPLETED,
                         completedAt := some now, winnerId := some cSel }) ch hch rfl
  · trivial

/-- Witness for C1: both cached nominations at the concrete state agree on
u1 and the handler completes the challenge with winnerId u1. -/
theorem claimVictory_agreement_completes_witness :
    exAgreeState.cache.getWinnerSelections "c1" = some [("u1", "u1"), ("u2", "u1")] ∧
    findChallenge (handleClaimVictory 7 exAgreeState "c1").1.store "c1" =
      some { exInProgress with status := ChallengeStatus.COMPLETED,
                               completedAt := some 7, winnerId := some "u1" } ∧
    (handleClaimVictory 7 exAgreeState "c1").2 =
      [Send.targeted exInProgress.creatorId exInProgress.inviteeId
        (Frame.challengeCompleted "c1" "u1"
          { exInProgress with status := ChallengeStatus.COMPLETED,
                              completedAt := some 7, winnerId := some "u1" })] := by
  refine ⟨rfl, ?_, ?_⟩
  · exact (claimVictory_agreement_completes 7 exAgreeState "c1"
      [("u1", "u1"), ("u2", "u1")] exInProgress "u2" "u1"
      (by decide) rfl rfl rfl rfl (by decide) rfl).1
  · exact (claimVictory_agreement_completes 7 exAgreeState "c1"
      [("u1", "u1"), ("u2", "u1")] exInProgress "u2" "u1"
      (by decide) rfl rfl rfl rfl (by decide) rfl).2

/-- Claim C10: the claimVictory consensus check reads only the in-memory
nomination cache, never the store: with no cache entry for the challenge
the handler sends `claimVictoryFailed` to both players and leaves the
whole state unchanged, whatever WinnerSelection rows the store holds. -/
theorem claimVictory_reads_only_cache (now : Nat) (st : ServerState)
    (cid : String) (ch : Challenge)
    (hcid : cid ≠ "")
    (hmiss : st.cache.getWinnerSelections cid = none)
    (hch : findChallenge st.store cid = some ch) :
    handleClaimVictory now st cid =
      (st, [Send.targeted ch.creatorId ch.inviteeId
        (Frame.claimVictoryFailed noSelectionsMsg)]) := by
  simp only [handleClaimVictory, if_neg hcid, hmiss, hch]

/-- Witness for C10: the store holds matching WinnerSelection rows for
both players, yet the handler fails the claim and changes nothing because
the cache has no entry. -/
theorem claimVictory_reads_only_cache_witness :
    exCacheMissState.store.winnerSelections =
      [⟨"c1", "u1", "u1"⟩, ⟨"c1", "u2", "u1"⟩] ∧
    exCacheMissState.cache.getWinnerSelections "c1" = none ∧
    handleClaimVictory 7 exCacheMissState "c1" =
      (exCacheMissState, [Send.targeted exInProgress.creatorId exInProgress.inviteeId
        (Frame.claimVictoryFailed noSelectionsMsg)]) := by
  exact ⟨rfl, rfl, claimVictory_reads_only_cache 7 exCacheMissState "c1" exInProgress
    (by decide) rfl rfl⟩

/-- Claim C2: for every claimVictory message on an existing challenge
where the creator's or the invitee's cached nomination is missing, or
where both exist but differ, a `claimVictoryFailed` frame is sent to both
players and the whole state is unchanged (in particular the challenge
record keeps its status and no WinnerSelection row is deleted). -/
theorem claimVictory_failure_leaves_state (now : Nat) (st : ServerState)
    (cid : String) (ch : Challenge)
    (hcid : cid ≠ "")
    (hch : findChallenge st.store cid = some ch)
    (hbad :
      st.cache.getWinnerSelections cid = none ∨
      (∃ sels, st.cache.getWinnerSelections cid = some sels ∧
        (jsMissing (getA sels ch.creatorId) = true ∨
         jsMissing (ch.inviteeId.bind (fun i => getA sels i)) = true)) ∨
      (∃ sels cSel iSel, st.cache.getWinnerSelections cid = some sels ∧
        getA sels ch.creatorId = some cSel ∧
        ch.inviteeId.bind (fun i => getA sels i) = some iSel ∧
        cSel ≠ "" ∧ iSel ≠ "" ∧ cSel ≠ iSel)) :
    (handleClaimVictory now st cid).1 = st ∧
    ∃ msg, (handleClaimVictory now st cid).2 =
      [Send.targeted ch.creatorId ch.inviteeId (Frame.claimVictoryFailed msg)] := by
  rcases hbad with hmiss | ⟨sels, hsels, hm⟩ | ⟨sels, cSel, iSel, hsels, hc2, hi2, hc3, hi3, hne⟩
  · simp only [handleClaimVictory, if_neg hcid, hmiss, hch]
    exact ⟨trivial, noSelectionsMsg, rfl⟩
  · cases hc2 : getA sels ch.creatorId with
    | none =>
        simp only [handleClaimVictory, if_neg hcid, hsels, hch, hc2]
        exact ⟨trivial, bothMustSelectMsg, rfl⟩
    | some cSel =>
        cases hi2 : ch.inviteeId.bind (fun i => getA sels i) with
        | none =>
            simp only [handleClaimVictory, if_neg hcid, hsels, hch, hc2, hi2]
            exact ⟨trivial, bothMustSelectMsg, rfl⟩
        | some iSel =>
            have hempty : cSel = "" ∨ iSel = "" := by
              rcases hm with hm | hm
              · rw [hc2] at hm
                exact Or.inl (by simpa [jsMissing] using hm)
              · rw [hi2] at hm
                exact Or.inr (by simpa [jsMissing] using hm)
            simp only [handleClaimVictory, if_neg hcid, hsels, hch, hc2, hi2,
              if_pos hempty]
            exact ⟨trivial, bothMustSelectMsg, rfl⟩
  · have h1 : ¬(cSel = "" ∨ iSel = "") := by simp [hc3, hi3]
    simp only [handleClaimVictory, if_neg hcid, hsels, hch, hc2, hi2,
      if_neg h1, if_pos hne]
    exact ⟨trivial, disagreeMsg, rfl⟩

/-- Witness for C2: at the concrete state the two cached nominations
differ (u1 versus u2), the handler reports the disagreement to both
players and the state is unchanged. -/
theorem claimVictory_failure_leaves_state_witness :
    exDisagreeState.cache.getWinnerSelections "c1" =
      some [("u1", "u1"), ("u2", "u2")] ∧
    (handleClaimVictory 7 exDisagreeState "c1").1 = exDisagreeState ∧
    ∃ msg, (handleClaimVictory 7 exDisagreeState "c1").2 =
      [Send.targeted exInProgress.creatorId exInProgress.inviteeId
        (Frame.claimVictoryFailed msg)] := by
  have h := claimVictory_failure_leaves_state 7 exDisagreeState "c1" exInProgress
    (by decide) rfl
    (Or.inr (Or.inr ⟨[("u1", "u1"), ("u2", "u2")], "u1", "u2", rfl, rfl, rfl,
      by decide, by decide, by decide⟩))
  exact ⟨rfl, h.1, h.2⟩


/-- Counterexample for C3: selectWinner on an ACCEPTED (not IN_PROGRESS)
challenge still creates a WinnerSelection row in the store, so rows are
not confined to IN_PROGRESS challenges. -/
theorem selectWinner_on_accepted_creates_row :
    exAccepted.status = ChallengeStatus.ACCEPTED ∧
    exAcceptedState.store.winnerSelections = [] ∧
    (handleSelectWinner exAcceptedState "c2" "u1" "u1").1.store.winnerSelections
      = [⟨"c2", "u1", "u1"⟩] := by
  exact ⟨rfl, rfl, rfl⟩

/-- Claim C3 (amended): the transaction completing a challenge deletes
every WinnerSelection row of that challenge and drops its in-memory cache
entry, so immediately after the completing transaction the COMPLETED
challenge has no rows; however selectWinner upserts a row whenever the
challenge exists, whatever its status (the code has no IN_PROGRESS
guard). -/
theorem completion_purges_selections :
    (∀ (now : Nat) (st : ServerState) (cid : String) (sels : Selections)
      (ch : Challenge) (iv cSel : String),
      cid ≠ "" →
      st.cache.getWinnerSelections cid = some sels →
      findChallenge st.store cid = some ch →
      ch.inviteeId = some iv →
      getA sels ch.creatorId = some cSel →
      cSel ≠ "" →
      getA sels iv = some cSel →
      (∀ r ∈ (handleClaimVictory now st cid).1.store.winnerSelections,
        r.challengeId ≠ cid) ∧
      (handleClaimVictory now st cid).1.cache.getWinnerSelections cid = none) ∧
    (∀ (st : ServerState) (cid pid wid : String) (ch : Challenge),
      cid ≠ "" → pid ≠ "" → wid ≠ "" →
      findChallenge st.store cid = some ch →
      (handleSelectWinner st cid pid wid).1.store.winnerSelections
        = upsertSelection st.store.winnerSelections cid pid wid) := by
  constructor
  · intro now st cid sels ch iv cSel hcid hcache hch hinv hcSel hcne hiSel
    have h1 : ¬(cSel = "" ∨ cSel = "") := by simp [hcne]
    have h2 : ¬(cSel ≠ cSel) := by simp
    simp only [handleClaimVictory, if_neg hcid, hcache, hch, hinv, Option.some_bind,
      hcSel, hiSel, if_neg h1, if_neg h2]
    constructor
    · intro r hr
      have := List.of_mem_filter hr
      simpa using this
    · show (st.cache.deleteWinnerSelections cid).getWinnerSelections cid = none
      unfold StateManager.deleteWinnerSelections StateManager.getWinnerSelections
      exact getA_delA_same _ _
  · intro st cid pid wid ch hcid hpid hwid hch
    have hcond : ¬(cid = "" ∨ pid = "" ∨ wid = "") := by simp [hcid, hpid, hwid]
    simp only [handleSelectWinner, if_neg hcond, hch]

/-- Witness for the amended C3 at concrete states: the completing run
leaves no cache entry, and selectWinner on an ACCEPTED challenge performs
the upsert. -/
theorem completion_purges_selections_witness :
    ((handleClaimVictory 7 exAgreeState "c1").1.cache.getWinnerSelections "c1" = none) ∧
    ((handleSelectWinner exAcceptedState "c2" "u1" "u1").1.store.winnerSelections
      = upsertSelection exAcceptedState.store.winnerSelections "c2" "u1" "u1") := by
  exact ⟨(completion_purges_selections.1 7 exAgreeState "c1"
      [("u1", "u1"), ("u2", "u1")] exInProgress "u2" "u1"
      (by decide) rfl rfl rfl rfl (by decide) rfl).2,
    completion_purges_selections.2 exAcceptedState "c2" "u1" "u1" exAccepted
      (by decide) (by decide) (by decide) rfl⟩

/-- Counterexample for C4: handleAcceptChallenge moves a COMPLETED
challenge back to ACCEPTED, a backward transition off the FSM path. -/
theorem acceptChallenge_moves_completed_backward :
    findChallenge exCompletedState.store "c3" = some exCompleted ∧
    exCompleted.status = ChallengeStatus.COMPLETED ∧
    findChallenge (handleAcceptChallenge 9 exCompletedState "c3").1.store "c3"
      = some { exCompleted with status := ChallengeStatus.ACCEPTED,
                                acceptedAt := some 9 } := by
  exact ⟨rfl, rfl, rfl⟩

/-- Claim C4 (amended): handleStartChallenge either leaves the store
unchanged or performs exactly the ACCEPTED to IN_PROGRESS edge; but
handleAcceptChallenge sets any existing challenge to ACCEPTED with no
check of its current status, so the status of a challenge does not
advance monotonically along the FSM edges. -/
theorem startChallenge_edge_and_accept_unconditional :
    (∀ (st : ServerState) (cid uid : String),
      (handleStartChallenge st cid uid).1.store = st.store ∨
      (∃ ch, findChallenge st.store cid = some ch ∧
        ch.status = ChallengeStatus.ACCEPTED ∧
        (handleStartChallenge st cid uid).1.store.challenges
          = updateChallengeList st.store.challenges cid
              (fun c => { c with status := ChallengeStatus.IN_PROGRESS }))) ∧
    (∀ (now : Nat) (st : ServerState) (cid : String) (ch : Challenge),
      cid ≠ "" → findChallenge st.store cid = some ch →
      findChallenge (handleAcceptChallenge now st cid).1.store cid
        = some { ch with status := ChallengeStatus.ACCEPTED,
                         acceptedAt := some now }) := by
  constructor
  · intro st cid uid
    by_cases h0 : cid = "" ∨ uid = ""
    · simp only [handleStartChallenge, if_pos h0]
      left
      trivial
    · cases hch : findChallenge st.store cid with
      | none =>
          simp only [handleStartChallenge, if_neg h0, hch]
          left
          trivial
      | some ch =>
          simp only [handleStartChallenge, if_neg h0, hch]
          by_cases hinv : ch.inviteeId ≠ some uid
          · rw [if_pos hinv]
            left
            trivial
          · rw [if_neg hinv]
            by_cases hon : (!(st.cache.isUserOnline ch.creatorId &&
                (match ch.inviteeId with
                 | some i => st.cache.isUserOnline i
                 | none => false))) = true
            · rw [if_pos hon]
              left
              trivial
            · rw [if_neg hon]
              by_cases hacc : ch.status = ChallengeStatus.ACCEPTED
              · rw [if_pos hacc]
                right
                exact ⟨ch, rfl, hacc, rfl⟩
              · rw [if_neg hacc]
                left
                trivial
  · intro now st cid ch hcid hch
    simp only [handleAcceptChallenge, if_neg hcid, hch]
    show findChallenge { st.store with
        challenges := updateChallengeList st.store.challenges cid
          (fun c => { c with status := ChallengeStatus.ACCEPTED,
                             acceptedAt := some now }) } cid = _
    unfold findChallenge
    exact find?_updateChallengeList st.store.challenges cid
      (fun c => { c with status := ChallengeStatus.ACCEPTED,
                         acceptedAt := some now }) ch hch rfl

/-- Witness for the amended C4: at the concrete COMPLETED challenge,
startChallenge leaves the store unchanged and acceptChallenge rewrites
the status to ACCEPTED. -/
theorem startChallenge_edge_and_accept_unconditional_witness :
    ((handleStartChallenge exCompletedState "c3" "u2").1.store = exCompletedState.store ∨
      (∃ ch, findChallenge exCompletedState.store "c3" = some ch ∧
        ch.status = ChallengeStatus.ACCEPTED ∧
        (handleStartChallenge exCompletedState "c3" "u2").1.store.challenges
          = updateChallengeList exCompletedState.store.challenges "c3"
              (fun c => { c with status := ChallengeStatus.IN_PROGRESS }))) ∧
    findChallenge (handleAcceptChallenge 9 exCompletedState "c3").1.store "c3"
      = some { exCompleted with status := ChallengeStatus.ACCEPTED,
                                acceptedAt := some 9 } := by
  exact ⟨startChallenge_edge_and_accept_unconditional.1 exCompletedState "c3" "u2",
    startChallenge_edge_and_accept_unconditional.2 9 exCompletedState "c3" exCompleted
      (by decide) rfl⟩


/-- Counterexample for C7: on an ACCEPTED challenge, selectWinner
followed by getWinnerSelections does not report the nomination at
[c][p] — the reply only covers IN_PROGRESS challenges — refuting the
round-trip law as stated for every challenge. -/
theorem selectWinner_report_misses_accepted :
    exAccepted.status = ChallengeStatus.ACCEPTED ∧
    (handleGetWinnerSelections (handleSelectWinner exAcceptedState "c2" "u1" "u1").1).2
      = [Send.toSocket (Frame.allWinnerSelections [])] ∧
    getNested ([] : List (String × Selections)) "c2" "u1" ≠ some "u1" := by
  exact ⟨rfl, rfl, by decide⟩

/-- Claim C7 (amended): for every challenge that exists with status
IN_PROGRESS, selectWinner(c,p,w) followed by getWinnerSelections yields w
at [c][p] in the reply; two consecutive selectWinner calls for the same
(c,p) produce the same state as the second alone (upsert idempotence);
and selectWinner never changes any challenge record. -/
theorem selectWinner_roundtrip_laws :
    (∀ (st : ServerState) (c p w : String) (ch : Challenge),
      c ≠ "" → p ≠ "" → w ≠ "" →
      findChallenge st.store c = some ch →
      ch.status = ChallengeStatus.IN_PROGRESS →
      ∃ A, (handleGetWinnerSelections (handleSelectWinner st c p w).1).2
          = [Send.toSocket (Frame.allWinnerSelections A)] ∧
        getNested A c p = some w) ∧
    (∀ (st : ServerState) (c p w1 w2 : String) (ch : Challenge),
      c ≠ "" → p ≠ "" → w1 ≠ "" → w2 ≠ "" →
      findChallenge st.store c = some ch →
      (handleSelectWinner (handleSelectWinner st c p w1).1 c p w2).1
        = (handleSelectWinner st c p w2).1) ∧
    (∀ (st : ServerState) (c p w : String),
      (handleSelectWinner st c p w).1.store.challenges = st.store.challenges) := by
  refine ⟨?_, ?_, ?_⟩
  · intro st c p w ch hc hp hw hch hstatus
    have hcond : ¬(c = "" ∨ p = "" ∨ w = "") := by simp [hc, hp, hw]
    have hst1 : (handleSelectWinner st c p w).1
        = ⟨{ st.store with
              winnerSelections := upsertSelection st.store.winnerSelections c p w },
           st.cache.setWinnerSelection c p w⟩ := by
      simp only [handleSelectWinner, if_neg hcond, hch]
    rw [hst1]
    refine ⟨_, rfl, ?_⟩
    show getNested (nestFold
      (List.filter (selectionStatusActive
        { st.store with
          winnerSelections := upsertSelection st.store.winnerSelections c p w })
        (upsertSelection st.store.winnerSelections c p w)) []) c p = some w
    apply getNested_nestFold_mem
    · intro r hr hrc hrp
      exact upsert_key_value st.store.winnerSelections c p w r
        (List.mem_filter.mp hr).1 hrc hrp
    · obtain ⟨r, hr, hkey⟩ := upsert_key_mem st.store.winnerSelections c p w
      refine ⟨r, List.mem_filter.mpr ⟨hr, ?_⟩, hkey⟩
      unfold selectionStatusActive
      rw [hkey.1]
      have hfind2 : findChallenge { st.store with
          winnerSelections := upsertSelection st.store.winnerSelections c p w } c
          = some ch := by
        unfold findChallenge at hch ⊢
        exact hch
      rw [hfind2]
      simp [hstatus]
  · intro st c p w1 w2 ch hc hp hw1 hw2 hch
    have hcond1 : ¬(c = "" ∨ p = "" ∨ w1 = "") := by simp [hc, hp, hw1]
    have hcond2 : ¬(c = "" ∨ p = "" ∨ w2 = "") := by simp [hc, hp, hw2]
    have hst1 : (handleSelectWinner st c p w1).1
        = ⟨{ st.store with
              winnerSelections := upsertSelection st.store.winnerSelections c p w1 },
           st.cache.setWinnerSelection c p w1⟩ := by
      simp only [handleSelectWinner, if_neg hcond1, hch]
    rw [hst1]
    have hch2 : findChallenge { st.store with
        winnerSelections := upsertSelection st.store.winnerSelections c p w1 } c
        = some ch := by
      unfold findChallenge at hch ⊢
      exact hch
    simp only [handleSelectWinner, if_neg hcond2, hch, hch2]
    unfold StateManager.setWinnerSelection
    rw [upsert_upsert, setNested_setNested]
  · intro st c p w
    unfold handleSelectWinner
    split
    · rfl
    · split
      · rfl
      · rfl

/-- Witness for the amended C7 at a concrete IN_PROGRESS challenge:
the round-trip reports the nomination, the double upsert collapses, and
the challenge rows are untouched. -/
theorem selectWinner_roundtrip_laws_witness :
    (∃ A, (handleGetWinnerSelections (handleSelectWinner exSelState "c1" "u1" "u1").1).2
        = [Send.toSocket (Frame.allWinnerSelections A)] ∧
      getNested A "c1" "u1" = some "u1") ∧
    (handleSelectWinner (handleSelectWinner exSelState "c1" "u1" "u2").1 "c1" "u1" "u1").1
      = (handleSelectWinner exSelState "c1" "u1" "u1").1 ∧
    (handleSelectWinner exSelState "c1" "u1" "u1").1.store.challenges
      = exSelState.store.challenges := by
  exact ⟨selectWinner_roundtrip_laws.1 exSelState "c1" "u1" "u1" exInProgress
      (by decide) (by decide) (by decide) rfl rfl,
    selectWinner_roundtrip_laws.2.1 exSelState "c1" "u1" "u2" "u1" exInProgress
      (by decide) (by decide) (by decide) (by decide) rfl,
    selectWinner_roundtrip_laws.2.2 exSelState "c1" "u1" "u1"⟩


/-- Counterexample for C5, three concrete runs: (A) a non-open PENDING
challenge with an unbound invitee slot is joined successfully, though the
claimed isOpen=true precondition should have failed the join; (B) a
successful join of an open challenge leaves isOpen = true, not false;
(C) the creator joining a non-PENDING challenge receives the
own-challenge message, not the availability message the claimed check
order would produce first. -/
theorem joinOpenChallenge_ignores_isOpen :
    (exPendingClosed.isOpen = false ∧
      (handleJoinOpenChallenge 3 exPendingClosedState "c4" "u2").2
        = [Send.targeted "u1" (some "u2")
            (Frame.challengeAccepted
              { exPendingClosed with
                  inviteeId := some "u2",
                  status := ChallengeStatus.ACCEPTED, acceptedAt := some 3 } [])]) ∧
    (exPendingOpen.isOpen = true ∧
      findChallenge (handleJoinOpenChallenge 3 exPendingOpenState "c5" "u2").1.store "c5"
        = some { exPendingOpen with
                   inviteeId := some "u2",
                   status := ChallengeStatus.ACCEPTED, acceptedAt := some 3 }) ∧
    (exCompleted.status ≠ ChallengeStatus.PENDING ∧
      (handleJoinOpenChallenge 3 exCompletedState "c3" "u1").2
        = [Send.toSocket (Frame.joinOpenChallengeFailed ownChallengeMsg)]) := by
  exact ⟨⟨rfl, rfl⟩, ⟨rfl, rfl⟩, ⟨by decide, rfl⟩⟩

/-- Claim C5 (amended): handleJoinOpenChallenge checks, in order:
challenge exists; the sender is not the creator; a sender who already
occupies inviteeId gets the ACCEPTED state re-written and re-broadcast
(idempotency); a different occupant is rejected; status must be PENDING;
the user must exist with coins at or above the wager. The first failure
answers joinOpenChallengeFailed to the originator only; on success the
handler sets inviteeId, status=ACCEPTED and acceptedAt=now and broadcasts
challengeAccepted to both players; isOpen is neither checked nor
cleared. -/
theorem joinOpenChallenge_branch_behavior (now : Nat) (st : ServerState)
    (cid uid : String) (ch : Challenge)
    (hcid : cid ≠ "") (huid : uid ≠ "")
    (hch : findChallenge st.store cid = some ch) :
    (ch.creatorId = uid →
      handleJoinOpenChallenge now st cid uid
        = (st, [Send.toSocket (Frame.joinOpenChallengeFailed ownChallengeMsg)])) ∧
    (ch.creatorId ≠ uid → ch.inviteeId = some uid →
      findChallenge (handleJoinOpenChallenge now st cid uid).1.store cid
        = some { ch with status := ChallengeStatus.ACCEPTED, acceptedAt := some now } ∧
      (handleJoinOpenChallenge now st cid uid).2
        = [Send.targeted ch.creatorId (some uid)
            (Frame.challengeAccepted
              { ch with status := ChallengeStatus.ACCEPTED, acceptedAt := some now }
              (enrich st.cache cid))]) ∧
    (ch.creatorId ≠ uid → ch.inviteeId ≠ some uid → optTruthy ch.inviteeId = true →
      handleJoinOpenChallenge now st cid uid
        = (st, [Send.toSocket (Frame.joinOpenChallengeFailed occupiedMsg)])) ∧
    (ch.creatorId ≠ uid → ch.inviteeId ≠ some uid → optTruthy ch.inviteeId = false →
      ch.status ≠ ChallengeStatus.PENDING →
      handleJoinOpenChallenge now st cid uid
        = (st, [Send.toSocket (Frame.joinOpenChallengeFailed notAvailableMsg)])) ∧
    (ch.creatorId ≠ uid → ch.inviteeId ≠ some uid → optTruthy ch.inviteeId = false →
      ch.status = ChallengeStatus.PENDING → findUser st.store uid = none →
      handleJoinOpenChallenge now st cid uid
        = (st, [Send.toSocket (Frame.joinOpenChallengeFailed userNotFoundMsg)])) ∧
    (∀ u, ch.creatorId ≠ uid → ch.inviteeId ≠ some uid → optTruthy ch.inviteeId = false →
      ch.status = ChallengeStatus.PENDING → findUser st.store uid = some u →
      u.coins < ch.coins →
      handleJoinOpenChallenge now st cid uid
        = (st, [Send.toSocket (Frame.joinOpenChallengeFailed
            (insufficientCoinsMsg ch.coins u.coins))])) ∧
    (∀ u, ch.creatorId ≠ uid → ch.inviteeId ≠ some uid → optTruthy ch.inviteeId = false →
      ch.status = ChallengeStatus.PENDING → findUser st.store uid = some u →
      ¬ u.coins < ch.coins →
      findChallenge (handleJoinOpenChallenge now st cid uid).1.store cid
        = some { ch with inviteeId := some uid, status := ChallengeStatus.ACCEPTED,
                         acceptedAt := some now } ∧
      (handleJoinOpenChallenge now st cid uid).2
        = [Send.targeted ch.creatorId (some uid)
            (Frame.challengeAccepted
              { ch with inviteeId := some uid, status := ChallengeStatus.ACCEPTED,
                        acceptedAt := some now }
              (enrich st.cache cid))]) := by
  have hcond : ¬(cid = "" ∨ uid = "") := by simp [hcid, huid]
  refine ⟨?_, ?_, ?_, ?_, ?_, ?_, ?_⟩
  · intro h1
    simp only [handleJoinOpenChallenge, if_neg hcond, hch, if_pos h1]
  · intro h1 h2
    simp only [handleJoinOpenChallenge, if_neg hcond, hch, if_neg h1, if_pos h2]
    constructor
    · show findChallenge { st.store with
          challenges := updateChallengeList st.store.challenges cid
            (fun c => { c with status := ChallengeStatus.ACCEPTED,
                               acceptedAt := some now }) } cid = _
      unfold findChallenge
      exact find?_updateChallengeList st.store.challenges cid
        (fun c => { c with status := ChallengeStatus.ACCEPTED,
                           acceptedAt := some now }) ch hch rfl
    · rw [← h2]
  · intro h1 h2 h3
    simp only [handleJoinOpenChallenge, if_neg hcond, hch, if_neg h1, if_neg h2,
      if_pos h3]
  · intro h1 h2 h3 h4
    have h3n : ¬(optTruthy ch.inviteeId = true) := by simp [h3]
    simp only [handleJoinOpenChallenge, if_neg hcond, hch, if_neg h1, if_neg h2,
      if_neg h3n, if_pos h4]
  · intro h1 h2 h3 h4 h5
    have h3n : ¬(optTruthy ch.inviteeId = true) := by simp [h3]
    have h4n : ¬(ch.status ≠ ChallengeStatus.PENDING) := by simp [h4]
    simp only [handleJoinOpenChallenge, if_neg hcond, hch, if_neg h1, if_neg h2,
      if_neg h3n, if_neg h4n, h5]
  · intro u h1 h2 h3 h4 h5 h6
    have h3n : ¬(optTruthy ch.inviteeId = true) := by simp [h3]
    have h4n : ¬(ch.status ≠ ChallengeStatus.PENDING) := by simp [h4]
    simp only [handleJoinOpenChallenge, if_neg hcond, hch, if_neg h1, if_neg h2,
      if_neg h3n, if_neg h4n, h5, if_pos h6]
  · intro u h1 h2 h3 h4 h5 h6
    have h3n : ¬(optTruthy ch.inviteeId = true) := by simp [h3]
    have h4n : ¬(ch.status ≠ ChallengeStatus.PENDING) := by simp [h4]
    simp only [handleJoinOpenChallenge, if_neg hcond, hch, if_neg h1, if_neg h2,
      if_neg h3n, if_neg h4n, h5, if_neg h6]
    constructor
    · show findChallenge { st.store with
          challenges := updateChallengeList st.store.challenges cid
            (fun c => { c with inviteeId := some uid,
                               status := ChallengeStatus.ACCEPTED,
                               acceptedAt := some now }) } cid = _
      unfold findChallenge
      exact find?_updateChallengeList st.store.challenges cid
        (fun c => { c with inviteeId := some uid,
                           status := ChallengeStatus.ACCEPTED,
                           acceptedAt := some now }) ch hch rfl
    · trivial

/-- Witness for the amended C5: the success branch applied at a concrete
open challenge and the creator-rejection branch at a completed one. -/
theorem joinOpenChallenge_branch_behavior_witness :
    findChallenge (handleJoinOpenChallenge 3 exPendingOpenState "c5" "u2").1.store "c5"
      = some { exPendingOpen with
                 inviteeId := some "u2",
                 status := ChallengeStatus.ACCEPTED, acceptedAt := some 3 } ∧
    (handleJoinOpenChallenge 3 exCompletedState "c3" "u1").2
      = [Send.toSocket (Frame.joinOpenChallengeFailed ownChallengeMsg)] := by
  refine ⟨?_, ?_⟩
  · exact ((joinOpenChallenge_branch_behavior 3 exPendingOpenState "c5" "u2" exPendingOpen
      (by decide) (by decide) rfl).2.2.2.2.2.2 bob (by decide) (by decide) rfl rfl rfl
      (by decide)).1
  · have h := (joinOpenChallenge_branch_behavior 3 exCompletedState "c3" "u1" exCompleted
      (by decide) (by decide) rfl).1 rfl
    rw [h]


/-- Claim C6: for every startChallenge message on an existing challenge,
when the sender is the invitee, both participants are in the online
registry and the status is ACCEPTED, the status moves to IN_PROGRESS, a
challengeStartedBy frame is broadcast to both players and the
start-handshake entry for the challenge is cleared; when the sender is
not the invitee (in particular the creator), or the players are not both
online, or the status is not ACCEPTED, a failedToStartChallenge frame
with a reason goes to the originator and the state is unchanged. -/
theorem startChallenge_contract (st : ServerState) (cid uid : String) (ch : Challenge)
    (hcid : cid ≠ "") (huid : uid ≠ "")
    (hch : findChallenge st.store cid = some ch) :
    (ch.inviteeId = some uid →
      st.cache.isUserOnline ch.creatorId = true →
      st.cache.isUserOnline uid = true →
      ch.status = ChallengeStatus.ACCEPTED →
      findChallenge (handleStartChallenge st cid uid).1.store cid
        = some { ch with status := ChallengeStatus.IN_PROGRESS } ∧
      (handleStartChallenge st cid uid).2
        = [Send.targeted ch.creatorId (some uid)
            (Frame.challengeStartedBy { ch with status := ChallengeStatus.IN_PROGRESS }
              (enrich st.cache cid))] ∧
      getA (handleStartChallenge st cid uid).1.cache.startChallengeMap cid = none) ∧
    (ch.inviteeId ≠ some uid →
      handleStartChallenge st cid uid
        = (st, [Send.toSocket (Frame.failedToStartChallenge onlyInviteeMsg)])) ∧
    (ch.inviteeId = some uid →
      ¬(st.cache.isUserOnline ch.creatorId = true ∧ st.cache.isUserOnline uid = true) →
      handleStartChallenge st cid uid
        = (st, [Send.toSocket (Frame.failedToStartChallenge offlineMsg)])) ∧
    (ch.inviteeId = some uid →
      st.cache.isUserOnline ch.creatorId = true →
      st.cache.isUserOnline uid = true →
      ch.status ≠ ChallengeStatus.ACCEPTED →
      handleStartChallenge st cid uid
        = (st, [Send.toSocket (Frame.failedToStartChallenge wrongStatusStartMsg)])) := by
  have hcond : ¬(cid = "" ∨ uid = "") := by simp [hcid, huid]
  refine ⟨?_, ?_, ?_, ?_⟩
  · intro hinv hcr hus hacc
    have hnotne : ¬(ch.inviteeId ≠ some uid) := by simp [hinv]
    have honn : ¬((!(st.cache.isUserOnline ch.creatorId &&
        (match ch.inviteeId with
         | some i => st.cache.isUserOnline i
         | none => false))) = true) := by
      rw [hinv]
      simp [hcr, hus]
    simp only [handleStartChallenge, if_neg hcond, hch, if_neg hnotne, if_neg honn,
      if_pos hacc]
    refine ⟨?_, ?_, ?_⟩
    · show findChallenge { st.store with
          challenges := updateChallengeList st.store.challenges cid
            (fun c => { c with status := ChallengeStatus.IN_PROGRESS }) } cid = _
      unfold findChallenge
      exact find?_updateChallengeList st.store.challenges cid
        (fun c => { c with status := ChallengeStatus.IN_PROGRESS }) ch hch rfl
    · rw [hinv]
    · show getA (delA st.cache.startChallengeMap cid) cid = none
      exact getA_delA_same _ _
  · intro hne
    simp only [handleStartChallenge, if_neg hcond, hch, if_pos hne]
  · intro hinv hnon
    have hb : (st.cache.isUserOnline ch.creatorId && st.cache.isUserOnline uid) = false := by
      cases h1 : st.cache.isUserOnline ch.creatorId <;>
        cases h2 : st.cache.isUserOnline uid <;> simp_all
    have hnotne : ¬(ch.inviteeId ≠ some uid) := by simp [hinv]
    have hon : ((!(st.cache.isUserOnline ch.creatorId &&
        (match ch.inviteeId with
         | some i => st.cache.isUserOnline i
         | none => false))) = true) := by
      rw [hinv]
      simp [hb]
    simp only [handleStartChallenge, if_neg hcond, hch, if_neg hnotne, if_pos hon]
  · intro hinv hcr hus hnacc
    have hnotne : ¬(ch.inviteeId ≠ some uid) := by simp [hinv]
    have honn : ¬((!(st.cache.isUserOnline ch.creatorId &&
        (match ch.inviteeId with
         | some i => st.cache.isUserOnline i
         | none => false))) = true) := by
      rw [hinv]
      simp [hcr, hus]
    simp only [handleStartChallenge, if_neg hcond, hch, if_neg hnotne, if_neg honn,
      if_neg hnacc]

/-- Witness for C6: the invitee starts the concrete ACCEPTED challenge
(status moves, handshake entry cleared) and the creator's attempt is
rejected. -/
theorem startChallenge_contract_witness :
    findChallenge (handleStartChallenge exStartState "c2" "u2").1.store "c2"
      = some { exAccepted with status := ChallengeStatus.IN_PROGRESS } ∧
    getA (handleStartChallenge exStartState "c2" "u2").1.cache.startChallengeMap "c2"
      = none ∧
    handleStartChallenge exStartState "c2" "u1"
      = (exStartState, [Send.toSocket (Frame.failedToStartChallenge onlyInviteeMsg)]) := by
  refine ⟨?_, ?_, ?_⟩
  · exact ((startChallenge_contract exStartState "c2" "u2" exAccepted
      (by decide) (by decide) rfl).1 rfl rfl rfl rfl).1
  · exact ((startChallenge_contract exStartState "c2" "u2" exAccepted
      (by decide) (by decide) rfl).1 rfl rfl rfl rfl).2.2
  · exact (startChallenge_contract exStartState "c2" "u1" exAccepted
      (by decide) (by decide) rfl).2.1 (by decide)

/-- Claim C8: a setOnline with online=true binds the socket under the
user id only when the user row exists; the registry keeps at most one
binding per user id across any message sequence (keys stay pairwise
distinct), and a second setOnline for the same id replaces the prior
binding. -/
theorem setOnline_binding_contract :
    (∀ (now : Nat) (st : ServerState) (uid : String) (online : Bool) (sock : Nat),
      findUser st.store uid = none →
      (handleSetOnline now st uid online sock).1 = st) ∧
    (∀ (now : Nat) (st : ServerState) (uid : String) (sock : Nat) (u : User),
      uid ≠ "" → findUser st.store uid = some u →
      getA (handleSetOnline now st uid true sock).1.cache.onlineUsers uid
        = some ⟨sock, u.name, now⟩) ∧
    (∀ (now : Nat) (st : ServerState) (uid : String) (online : Bool) (sock : Nat),
      KeysNodup st.cache.onlineUsers →
      KeysNodup (handleSetOnline now st uid online sock).1.cache.onlineUsers) ∧
    (∀ (now1 now2 : Nat) (st : ServerState) (uid : String) (sock1 sock2 : Nat) (u : User),
      uid ≠ "" → findUser st.store uid = some u →
      getA (handleSetOnline now2 (handleSetOnline now1 st uid true sock1).1
          uid true sock2).1.cache.onlineUsers uid
        = some ⟨sock2, u.name, now2⟩) := by
  refine ⟨?_, ?_, ?_, ?_⟩
  · intro now st uid online sock hnone
    unfold handleSetOnline
    by_cases h0 : uid = ""
    · rw [if_pos h0]
    · rw [if_neg h0, hnone]
  · intro now st uid sock u huid hu
    simp only [handleSetOnline, if_neg huid, hu, if_pos rfl, StateManager.setUserOnline]
    exact getA_setA_same _ _ _
  · intro now st uid online sock h
    by_cases h0 : uid = ""
    · simp only [handleSetOnline, if_pos h0]
      exact h
    · cases hu : findUser st.store uid with
      | none =>
          simp only [handleSetOnline, if_neg h0, hu]
          exact h
      | some u =>
          by_cases hon : online = true
          · simp only [handleSetOnline, if_neg h0, hu, if_pos hon,
              StateManager.setUserOnline]
            exact KeysNodup_setA st.cache.onlineUsers uid ⟨sock, u.name, now⟩ h
          · simp only [handleSetOnline, if_neg h0, hu, if_neg hon]
            exact h
  · intro now1 now2 st uid sock1 sock2 u huid hu
    have h1 : (handleSetOnline now1 st uid true sock1).1
        = { st with cache := st.cache.setUserOnline uid sock1 u.name now1 } := by
      simp [handleSetOnline, huid, hu]
    rw [h1]
    have hu2 : findUser ({ st with
        cache := st.cache.setUserOnline uid sock1 u.name now1 } : ServerState).store uid
        = some u := hu
    simp [handleSetOnline, huid, hu2, StateManager.setUserOnline, getA_setA_same]

/-- Witness for C8: an unknown user is not bound, a known user is bound,
keys stay distinct, and a second setOnline replaces the socket. -/
theorem setOnline_binding_contract_witness :
    (handleSetOnline 0 exOnlineState "zz" true 5).1 = exOnlineState ∧
    getA (handleSetOnline 1 exOnlineState "u1" true 5).1.cache.onlineUsers "u1"
      = some ⟨5, "alice", 1⟩ ∧
    KeysNodup (handleSetOnline 1 exOnlineState "u1" true 5).1.cache.onlineUsers ∧
    getA (handleSetOnline 2 (handleSetOnline 1 exOnlineState "u1" true 5).1
        "u1" true 6).1.cache.onlineUsers "u1" = some ⟨6, "alice", 2⟩ := by
  refine ⟨?_, ?_, ?_, ?_⟩
  · exact setOnline_binding_contract.1 0 exOnlineState "zz" true 5 rfl
  · exact setOnline_binding_contract.2.1 1 exOnlineState "u1" 5 alice (by decide) rfl
  · exact setOnline_binding_contract.2.2.1 1 exOnlineState "u1" true 5
      (by exact List.Pairwise.nil)
  · exact setOnline_binding_contract.2.2.2 1 2 exOnlineState "u1" 5 6 alice
      (by decide) rfl


/-- Claim C9: on startup the nomination cache is seeded with exactly the
WinnerSelection rows whose challenge has status IN_PROGRESS (given the
table's composite unique key, the seeded cache maps (c,p) to w precisely
when such a row for an IN_PROGRESS challenge is in the store); and when
the startup load fails, startServer aborts bring-up with the nonzero
exit code 1. -/
theorem startup_seeds_cache_exactly :
    (∀ (s : Store), SelectionsKeyConsistent s.winnerSelections →
      ∃ cache, startServer (Except.ok (queryActiveSelections s)) = Except.ok cache ∧
        ∀ (c p w : String),
          (getNested cache.winnerSelections c p = some w ↔
            ((⟨c, p, w⟩ : WinnerSelectionRow) ∈ s.winnerSelections ∧
              ∃ ch, findChallenge s c = some ch ∧
                ch.status = ChallengeStatus.IN_PROGRESS))) ∧
    (∀ e : String, startServer (Except.error e) = Except.error 1 ∧ (1 : Nat) ≠ 0) := by
  constructor
  · intro s hkeys
    refine ⟨_, rfl, ?_⟩
    intro c p w
    rw [show ((queryActiveSelections s).foldl
        (fun cch r => cch.setWinnerSelection r.challengeId r.playerId r.selectedWinner)
        emptyCache).winnerSelections
      = nestFold (queryActiveSelections s) emptyCache.winnerSelections from
      foldWinnerSelections_eq_nestFold _ _]
    constructor
    · intro h
      rcases getNested_nestFold_some _ _ c p w h with ⟨r, hr, hc, hp, hw⟩ | habs
      · have hmf := List.mem_filter.mp hr
        have hract := hmf.2
        have hrmem := hmf.1
        have hreq : r = ⟨c, p, w⟩ := by
          cases r
          simp only at hc hp hw
          simp [hc, hp, hw]
        subst hreq
        refine ⟨hrmem, ?_⟩
        revert hract
        unfold selectionStatusActive
        cases hfc : findChallenge s c with
        | none => intro hract; exact absurd hract (by simp)
        | some ch =>
            intro hract
            exact ⟨ch, rfl, by simpa using hract⟩
      · exact absurd habs (by simp [emptyCache, getNested, getA])
    · rintro ⟨hmem, ch, hfc, hstat⟩
      apply getNested_nestFold_mem
      · intro r hr hrc hrp
        exact hkeys r (List.mem_filter.mp hr).1 ⟨c, p, w⟩ hmem hrc hrp
      · refine ⟨⟨c, p, w⟩, List.mem_filter.mpr ⟨hmem, ?_⟩, rfl, rfl⟩
        unfold selectionStatusActive
        rw [show (⟨c, p, w⟩ : WinnerSelectionRow).challengeId = c from rfl, hfc]
        simp [hstat]
  · intro e
    exact ⟨rfl, by decide⟩

/-- Witness for C9 at a concrete store holding rows for one IN_PROGRESS
and one COMPLETED challenge, plus a failing load. -/
theorem startup_seeds_cache_exactly_witness :
    SelectionsKeyConsistent exStartupStore.winnerSelections ∧
    (∃ cache, startServer (Except.ok (queryActiveSelections exStartupStore))
        = Except.ok cache ∧
      ∀ (c p w : String),
        (getNested cache.winnerSelections c p = some w ↔
          ((⟨c, p, w⟩ : WinnerSelectionRow) ∈ exStartupStore.winnerSelections ∧
            ∃ ch, findChallenge exStartupStore c = some ch ∧
              ch.status = ChallengeStatus.IN_PROGRESS))) ∧
    startServer (Except.error "database unavailable") = Except.error 1 := by
  refine ⟨by unfold SelectionsKeyConsistent; decide, ?_, ?_⟩
  · exact startup_seeds_cache_exactly.1 exStartupStore
      (by unfold SelectionsKeyConsistent; decide)
  · exact (startup_seeds_cache_exactly.2 "database unavailable").1

end ChallengeServer
